import Mathlib

/-!
# Firmware task layer of the BLE smart lock

A shallow embedding of `Firmware/src/app/tasks/taskApp/taskApp.c` and of the
declarations of `Firmware/src/app/tasks/taskBle/taskBle.h`, together with the
properties of the task layer that can be settled on them.

* `taskAppCode` is embedded as a deterministic small-step machine over the
  control points of the C function; every call to a collaborator is appended
  to a trace.
* `taskBle.h` is embedded as the list of the function declarations it holds.
* The bodies of the BLE task and of the light task are not part of the
  sources at hand; where a property speaks about them, a model written from the
  specification is used and marked as such.
-/

namespace SmartLock

/-! ## Values shared by the tasks -/

/-- Modelled from the spec: the `Color` of a light command ("OFF, WHITE, and
other named presets"); `taskLight.h`, which declares `COLOR_OFF` and
`COLOR_WHITE`, is missing from the sources. -/
inductive Color where
  | COLOR_OFF
  | COLOR_WHITE
  | preset (tag : Nat)
  deriving DecidableEq, Repr

/-- Calls that `taskApp.c` issues, or mentions in its disabled demo code,
towards its collaborators (board, scheduler, light task), plus the event entry
points that `taskBle.h` declares. -/
inductive ExtCall where
  | boardEnableIo (enable : Bool)
  | boardLedOn
  | boardLedOff
  | vTaskDelay (ticks : Nat)
  | taskLightSetColor (color : Color) (durationMs : Nat)
  | taskBleEventDiscoverable
  | taskBleEventUndiscoverable
  | taskBleEventDoorState
  deriving DecidableEq, Repr

namespace ExtCall

/-- A call at which the calling task gives up the processor: of the calls
above only the timed delay `vTaskDelay` blocks the caller. -/
def isSuspension : ExtCall → Bool
  | vTaskDelay _ => true
  | _ => false

/-- A command to the light task. -/
def isLightCommand : ExtCall → Bool
  | taskLightSetColor _ _ => true
  | _ => false

/-- An event pushed to the BLE task. -/
def isBleEvent : ExtCall → Bool
  | taskBleEventDiscoverable => true
  | taskBleEventUndiscoverable => true
  | taskBleEventDoorState => true
  | _ => false

/-- A call that enables or disables the board I/O. -/
def isEnableIo : ExtCall → Bool
  | boardEnableIo _ => true
  | _ => false

end ExtCall

/-! ## The application task (`taskApp.c`) -/

/-- Control points of `taskAppCode`. `initializing` is the function entry,
`running` the head of `while (1)`, `returned` the closing brace of the
function. `halted` is the safe state the specification names for a failed
start-up; no statement of `taskAppCode` leads to it. -/
inductive Phase where
  | initializing
  | running
  | returned
  | halted
  deriving DecidableEq, Repr

/-- State of the application task: where it stands and what it has called. -/
structure TaskApp where
  phase : Phase
  trace : List ExtCall
  deriving DecidableEq, Repr

/-- The statements before the loop: `boardEnableIo(true);` (line 48). -/
def taskAppCode_startup : List ExtCall := [ExtCall.boardEnableIo true]

/-- The controlling expression of `while (1)` (line 50). -/
def taskAppCode_loopCond : Nat := 1

/-- The loop body (lines 51 to 62): all eight statements are commented out, so
one iteration issues no call. -/
def taskAppCode_loopBody : List ExtCall := []

/-- The task before its first instruction. -/
def taskAppCode_entry : TaskApp := { phase := Phase.initializing, trace := [] }

/-- One step of `taskAppCode`. From the entry the start-up statements run and
control reaches the loop head; at the loop head the condition is tested and,
when it is non-zero, one iteration of the body runs and control is back at the
head. `ioOk` is the outcome of `boardEnableIo(true)` in the environment and
`parameters` the task argument: the call is an expression statement whose
outcome is discarded, and the argument is marked `unused`. -/
def taskAppCode_step (_ioOk : Bool) (_parameters : Nat) (s : TaskApp) : TaskApp :=
  match s.phase with
  | Phase.initializing =>
      { phase := Phase.running, trace := s.trace ++ taskAppCode_startup }
  | Phase.running =>
      if taskAppCode_loopCond ≠ 0 then
        { phase := Phase.running, trace := s.trace ++ taskAppCode_loopBody }
      else
        { phase := Phase.returned, trace := s.trace }
  | Phase.returned => s
  | Phase.halted => s

/-- The task after `n` steps from its entry. After `n + 1` steps the start-up
and `n` loop iterations are complete. -/
def taskAppCode (ioOk : Bool) (parameters : Nat) : Nat → TaskApp
  | 0 => taskAppCode_entry
  | n + 1 => taskAppCode_step ioOk parameters (taskAppCode ioOk parameters n)

/-- The calls issued during loop iteration `k` (counted from 0): what step
`k + 2` appends to the trace left by step `k + 1`. -/
def taskAppCode_iterationCalls (ioOk : Bool) (parameters : Nat) (k : Nat) : List ExtCall :=
  (taskAppCode ioOk parameters (k + 2)).trace.drop
    (taskAppCode ioOk parameters (k + 1)).trace.length

/-! ## The declared interface of the BLE task (`taskBle.h`) -/

/-- Types that occur in the declarations of `taskBle.h`. -/
inductive CType where
  | void
  | voidPtr
  deriving DecidableEq, Repr

/-- Functions declared in `taskBle.h`. -/
inductive BleFunction where
  | taskBleCodeInit
  | taskBleCode
  | taskBleEventDiscoverable
  | taskBleEventUndiscoverable
  | taskBleEventDoorState
  deriving DecidableEq, Repr

namespace BleFunction

/-- The event entry points among the functions of `taskBle.h`: the three
functions named `taskBleEvent...` (lines 39 to 41). `taskBleCodeInit` and
`taskBleCode` (lines 36 and 37) are the set-up and the body of the task. -/
def isEventEntryPoint : BleFunction → Bool
  | taskBleEventDiscoverable => true
  | taskBleEventUndiscoverable => true
  | taskBleEventDoorState => true
  | _ => false

end BleFunction

/-- What a declaration holds between its parentheses: nothing at all (`()`),
the single keyword `void` (`(void)`), or a list of one or more parameters. -/
inductive ParamList where
  | empty
  | voidOnly
  | params (types : List CType)
  deriving DecidableEq, Repr

/-- The reading of the C language a declaration is taken in. Empty parentheses
changed their meaning with C23. -/
inductive CStandard where
  | beforeC23
  | c23
  deriving DecidableEq, Repr

namespace ParamList

/-- Number of parameters a parameter list fixes, `none` when it fixes none.
`(void)` fixes zero parameters and a written list its length. Empty
parentheses declare a function without prototype before C23, which leaves
number and types of the parameters unspecified (C11 6.7.6.3 paragraph 14);
from C23 on they mean the same as `(void)`. -/
def arity (std : CStandard) : ParamList → Option Nat
  | empty =>
      match std with
      | CStandard.beforeC23 => none
      | CStandard.c23 => some 0
  | voidOnly => some 0
  | params types => some types.length

end ParamList

/-- A function declaration: result type, name, and what is written between
the parentheses. -/
structure Declaration where
  result : CType
  name : BleFunction
  params : ParamList
  deriving DecidableEq, Repr

/-- The declarations of `taskBle.h`, lines 36 to 41, in order. Only
`taskBleCode` is written with a parameter (`void *parameters`); the other four
are written with empty parentheses. -/
def taskBle_h : List Declaration :=
  [ { result := CType.void, name := BleFunction.taskBleCodeInit,
      params := ParamList.empty },
    { result := CType.void, name := BleFunction.taskBleCode,
      params := ParamList.params [CType.voidPtr] },
    { result := CType.void, name := BleFunction.taskBleEventDiscoverable,
      params := ParamList.empty },
    { result := CType.void, name := BleFunction.taskBleEventUndiscoverable,
      params := ParamList.empty },
    { result := CType.void, name := BleFunction.taskBleEventDoorState,
      params := ParamList.empty } ]

/-- What `taskBle.h` writes between the parentheses of a function, `none` when
the header does not declare the function. -/
def declaredParams (f : BleFunction) : Option ParamList :=
  (taskBle_h.find? (fun d => decide (d.name = f))).map (fun d => d.params)

/-- Number of parameters `taskBle.h` fixes for a function under a reading of
the language, `none` when the header fixes none. -/
def declaredArity (std : CStandard) (f : BleFunction) : Option Nat :=
  (declaredParams f).bind (ParamList.arity std)

/-- The event entry points `taskBle.h` declares, in order. -/
def declaredEventEntryPoints : List BleFunction :=
  (taskBle_h.map (fun d => d.name)).filter BleFunction.isEventEntryPoint

/-! ## The BLE task state machine -/

/-- Modelled from the spec: `DoorState`, "enumerated value {Open, Closed,
Unknown at boot}"; the sources at hand declare no such type. -/
inductive DoorState where
  | Unknown
  | Closed
  | Open
  deriving DecidableEq, Repr

/-- Modelled from the spec: `DiscoverabilityState`, "{Discoverable,
Undiscoverable}"; the sources at hand declare no such type. -/
inductive DiscoverabilityState where
  | Undiscoverable
  | Discoverable
  deriving DecidableEq, Repr

/-- Modelled from the spec: the requests the BLE task sends to its
collaborators (start and stop of advertising, notification of the connected
peer, light feedback); `taskBle.c` is missing from the sources. -/
inductive BleRequest where
  | startAdvertising
  | stopAdvertising
  | notifyPeer (doorState : DoorState)
  | lightFeedback
  deriving DecidableEq, Repr

/-- Modelled from the spec: the composite state "(discoverability,
doorState)" owned by the BLE task; `taskBle.c` is missing from the sources. -/
structure BleTask where
  discoverability : DiscoverabilityState
  doorState : DoorState
  deriving DecidableEq, Repr

/-- Modelled from the spec: "Initial state: Undiscoverable,
DoorState=Unknown"; `taskBle.c` is missing from the sources. -/
def BleTask.boot : BleTask :=
  { discoverability := DiscoverabilityState.Undiscoverable, doorState := DoorState.Unknown }

/-- Modelled from the spec: the body of `taskBleEventDiscoverable`, missing
from the sources (only its declaration is in `taskBle.h`). "Sets
discoverability = Discoverable; triggers radio advertising (external
collaborator call); idempotent if already discoverable." The result is the new
state and the requests issued. -/
def taskBleEventDiscoverable (st : BleTask) : BleTask × List BleRequest :=
  if st.discoverability = DiscoverabilityState.Discoverable then
    (st, [])
  else
    ({ st with discoverability := DiscoverabilityState.Discoverable },
      [BleRequest.startAdvertising])

/-- Modelled from the spec: the body of `taskBleEventUndiscoverable`, missing
from the sources (only its declaration is in `taskBle.h`). "Sets
discoverability = Undiscoverable; stops advertising; idempotent." -/
def taskBleEventUndiscoverable (st : BleTask) : BleTask × List BleRequest :=
  if st.discoverability = DiscoverabilityState.Undiscoverable then
    (st, [])
  else
    ({ st with discoverability := DiscoverabilityState.Undiscoverable },
      [BleRequest.stopAdvertising])

/-- Modelled from the spec: the body of `taskBleEventDoorState`, missing from
the sources (only its declaration is in `taskBle.h`). "If `newState !=
currentDoorState`, updates DoorState, notifies any connected peer, and emits a
light-feedback request. No-op if state is unchanged." -/
def taskBleEventDoorState (newState : DoorState) (st : BleTask) : BleTask × List BleRequest :=
  if newState ≠ st.doorState then
    ({ st with doorState := newState },
      [BleRequest.notifyPeer newState, BleRequest.lightFeedback])
  else
    (st, [])

/-- The BLE task after a sequence of `taskBleEventDoorState` calls, oldest first. -/
def applyDoorStates : List DoorState → BleTask → BleTask
  | [], st => st
  | v :: rest, st => applyDoorStates rest (taskBleEventDoorState v st).1

/-- The wording of the property on call sequences: the value of the last call
whose value differed from its predecessor, `none` when no call did. The
predecessor of the first call is `prev`, the door state the sequence starts
from. -/
def lastDiffering (prev : DoorState) : List DoorState → Option DoorState
  | [] => none
  | v :: rest =>
      match lastDiffering v rest with
      | some w => some w
      | none => if v ≠ prev then some v else none

/-! ## The light feedback task -/

/-- Modelled from the spec: the state of the light task, whose code
(`taskLight.c`, `taskLight.h`) is missing from the sources. `now` is the time
in milliseconds, `color` what the indicator shows, `revertAt` the time of the
pending timed reversion if one is scheduled, `reversions` how many timed
reversions have been applied so far. -/
structure LightTask where
  now : Nat
  color : Color
  revertAt : Option Nat
  reversions : Nat
  deriving DecidableEq, Repr

/-- Modelled from the spec: `taskLightSetColor(color, durationMs)` of the light task
(`setColor` in the specification),
missing from the sources. The new command supersedes the active one
("last-writer-wins"): it "applies `color`; if `durationMs > 0`, schedules a
reversion to OFF after that duration elapses, measured from the command's
application time"; with `durationMs = 0` the color is held and nothing stays
scheduled ("a new command arriving before a timed reversion fires cancels the
pending reversion"). -/
def taskLightSetColor (color : Color) (durationMs : Nat) (l : LightTask) : LightTask :=
  { l with
    color := color
    revertAt := if durationMs > 0 then some (l.now + durationMs) else none }

/-- Modelled from the spec: the passing of `dt` milliseconds in the light
task, missing from the sources. A pending reversion whose time has come is
applied: the indicator goes to OFF and nothing stays scheduled. -/
def elapse (dt : Nat) (l : LightTask) : LightTask :=
  match l.revertAt with
  | some r =>
      if r ≤ l.now + dt then
        { now := l.now + dt, color := Color.COLOR_OFF, revertAt := none,
          reversions := l.reversions + 1 }
      else
        { l with now := l.now + dt }
  | none => { l with now := l.now + dt }

/-- After the first step the application task is at the loop head with the
single start-up call in its trace, and every further step leaves it there. -/
theorem taskAppCode_succ_eq (ioOk : Bool) (parameters : Nat) (n : Nat) :
    taskAppCode ioOk parameters (n + 1) =
      { phase := Phase.running, trace := [ExtCall.boardEnableIo true] } := by
  induction n with
  | zero => rfl
  | succ k ih =>
      show taskAppCode_step ioOk parameters (taskAppCode ioOk parameters (k + 1)) = _
      rw [ih]
      rfl

/-- After any call of `taskBleEventDoorState` the recorded door state is the value
passed, whether the call changed it or not. -/
theorem taskBleEventDoorState_doorState (v : DoorState) (st : BleTask) :
    (taskBleEventDoorState v st).1.doorState = v := by
  unfold taskBleEventDoorState
  by_cases h : v = st.doorState
  · simp [h]
  · simp [h]

/-- The door state after a sequence of calls, from any state of the BLE task:
the value of the last call that differed from its predecessor, and the door
state the sequence started from when no call did. -/
theorem applyDoorStates_doorState (calls : List DoorState) (st : BleTask) :
    (applyDoorStates calls st).doorState =
      (lastDiffering st.doorState calls).getD st.doorState := by
  induction calls generalizing st with
  | nil => rfl
  | cons v rest ih =>
      simp only [applyDoorStates, lastDiffering]
      rw [ih, taskBleEventDoorState_doorState]
      cases hrest : lastDiffering v rest with
      | some w => simp
      | none =>
          by_cases h : v = st.doorState
          · simp [h]
          · simp [h]

/-- Without a superseding command the timed reversion of the model does fire:
1500 ms after `taskLightSetColor(WHITE, 1500)` the indicator is OFF and one more
reversion has been applied. -/
theorem taskLightSetColor_white_reverts (l : LightTask) :
    (elapse 1500 (taskLightSetColor Color.COLOR_WHITE 1500 l)).color = Color.COLOR_OFF ∧
    (elapse 1500 (taskLightSetColor Color.COLOR_WHITE 1500 l)).reversions = l.reversions + 1 := by
  simp [elapse, taskLightSetColor]

/-- Before the reversion time the commanded color is shown. -/
theorem taskLightSetColor_white_holds (l : LightTask) :
    (elapse 1499 (taskLightSetColor Color.COLOR_WHITE 1500 l)).color = Color.COLOR_WHITE := by
  simp [elapse, taskLightSetColor]

/-! ## The application task -/

/-- C1: for every value of `parameters` (and every outcome of the call), the
task starts with an empty trace, and from the first step on its trace begins
with `boardEnableIo(true)`, holds exactly one I/O-enable call, and that call
has argument `true`; at every step the task is either still at its entry with
nothing called, or at the loop head with the call already made, so the call
comes before the loop is entered. -/
theorem taskAppCode_enableIo_first (ioOk : Bool) (parameters : Nat) :
    (taskAppCode ioOk parameters 0).trace = [] ∧
    (∀ n, (taskAppCode ioOk parameters (n + 1)).trace.head? =
        some (ExtCall.boardEnableIo true)) ∧
    (∀ n, ((taskAppCode ioOk parameters (n + 1)).trace.filter ExtCall.isEnableIo).length = 1) ∧
    (∀ n, (taskAppCode ioOk parameters (n + 1)).trace.count (ExtCall.boardEnableIo true) = 1) ∧
    (∀ n, ((taskAppCode ioOk parameters n).phase = Phase.initializing ∧
            (taskAppCode ioOk parameters n).trace = []) ∨
          ((taskAppCode ioOk parameters n).phase = Phase.running ∧
            (taskAppCode ioOk parameters n).trace.head? =
              some (ExtCall.boardEnableIo true))) := by
  refine ⟨rfl, ?_, ?_, ?_, ?_⟩
  · intro n
    rw [taskAppCode_succ_eq]
    rfl
  · intro n
    rw [taskAppCode_succ_eq]
    rfl
  · intro n
    rw [taskAppCode_succ_eq]
    decide
  · intro n
    cases n with
    | zero => exact Or.inl ⟨rfl, rfl⟩
    | succ k =>
        rw [taskAppCode_succ_eq]
        exact Or.inr ⟨rfl, rfl⟩

/-- C2: the task starts in `initializing`; after the first step it is in
`running`, and after every number of further steps it is still in `running`;
no state it reaches is `returned`, so `taskAppCode` never returns; and a step
taken from the loop head always leads back to the loop head. -/
theorem taskAppCode_running_forever (ioOk : Bool) (parameters : Nat) :
    (taskAppCode ioOk parameters 0).phase = Phase.initializing ∧
    (∀ n, (taskAppCode ioOk parameters (n + 1)).phase = Phase.running) ∧
    (∀ n, (taskAppCode ioOk parameters n).phase ≠ Phase.returned) ∧
    (∀ trace, (taskAppCode_step ioOk parameters
        { phase := Phase.running, trace := trace }).phase = Phase.running) := by
  refine ⟨rfl, ?_, ?_, ?_⟩
  · intro n
    rw [taskAppCode_succ_eq]
  · intro n
    cases n with
    | zero => simp [taskAppCode, taskAppCode_entry]
    | succ k =>
        rw [taskAppCode_succ_eq]
        decide
  · intro trace
    rfl

/-- C3, as stated, fails: the first loop iteration of `taskAppCode` issues no
call, hence holds no suspension point. -/
theorem taskAppCode_first_iteration_no_suspension :
    taskAppCode_iterationCalls true 0 0 = [] ∧
    ¬ ∃ c, c ∈ taskAppCode_iterationCalls true 0 0 ∧ c.isSuspension = true := by
  have h : taskAppCode_iterationCalls true 0 0 = [] := by
    unfold taskAppCode_iterationCalls
    rw [taskAppCode_succ_eq, taskAppCode_succ_eq]
    rfl
  refine ⟨h, ?_⟩
  rw [h]
  simp

/-- C3, amended: no iteration of the loop holds a suspension point. The loop
body is empty, every iteration issues no call at all, and the whole trace of
the task holds no suspending call. -/
theorem taskAppCode_no_suspension (ioOk : Bool) (parameters : Nat) (k : Nat) :
    taskAppCode_loopBody = [] ∧
    taskAppCode_iterationCalls ioOk parameters k = [] ∧
    (taskAppCode_iterationCalls ioOk parameters k).filter ExtCall.isSuspension = [] ∧
    (taskAppCode ioOk parameters k).trace.filter ExtCall.isSuspension = [] := by
  have h : taskAppCode_iterationCalls ioOk parameters k = [] := by
    unfold taskAppCode_iterationCalls
    rw [taskAppCode_succ_eq, taskAppCode_succ_eq]
    rfl
  refine ⟨rfl, h, ?_, ?_⟩
  · rw [h]
    rfl
  · cases k with
    | zero => rfl
    | succ j =>
        rw [taskAppCode_succ_eq]
        rfl

/-- C4, as stated, fails: in the run where `boardEnableIo(true)` fails the
task is in `running` after its first step, and at no step is it `halted`. -/
theorem taskAppCode_io_failure_not_halted :
    (taskAppCode false 0 1).phase = Phase.running ∧
    ¬ ∃ n, (taskAppCode false 0 n).phase = Phase.halted := by
  refine ⟨rfl, ?_⟩
  rintro ⟨n, hn⟩
  cases n with
  | zero => exact absurd hn (by decide)
  | succ k =>
      rw [taskAppCode_succ_eq] at hn
      exact absurd hn (by decide)

/-- C4, amended: the task does not observe the outcome of
`boardEnableIo(true)`. When the call fails the task runs exactly as when it
succeeds: it enters `running`, is never `halted`, and its trace holds no light
command and no BLE event. -/
theorem taskAppCode_io_failure_runs (parameters : Nat) (n : Nat) :
    taskAppCode false parameters n = taskAppCode true parameters n ∧
    (taskAppCode false parameters (n + 1)).phase = Phase.running ∧
    (taskAppCode false parameters n).phase ≠ Phase.halted ∧
    (taskAppCode false parameters n).trace.filter ExtCall.isLightCommand = [] ∧
    (taskAppCode false parameters n).trace.filter ExtCall.isBleEvent = [] := by
  cases n with
  | zero => exact ⟨rfl, rfl, by simp [taskAppCode, taskAppCode_entry], rfl, rfl⟩
  | succ k =>
      refine ⟨?_, ?_, ?_, ?_, ?_⟩
      · rw [taskAppCode_succ_eq, taskAppCode_succ_eq]
      · rw [taskAppCode_succ_eq]
      · rw [taskAppCode_succ_eq]
        decide
      · rw [taskAppCode_succ_eq]
        rfl
      · rw [taskAppCode_succ_eq]
        rfl

/-- C9: after the start-up and any number `n` of completed loop iterations the
trace of the task is exactly the single call `boardEnableIo(true)`; it holds no
`boardLedOn`, no `boardLedOff`, no `taskLightSetColor`, no `vTaskDelay` and no
BLE event. -/
theorem taskAppCode_trace_single_call (ioOk : Bool) (parameters : Nat) (n : Nat) :
    (taskAppCode ioOk parameters (n + 1)).trace = [ExtCall.boardEnableIo true] ∧
    (taskAppCode ioOk parameters (n + 1)).trace.count ExtCall.boardLedOn = 0 ∧
    (taskAppCode ioOk parameters (n + 1)).trace.count ExtCall.boardLedOff = 0 ∧
    (taskAppCode ioOk parameters (n + 1)).trace.filter ExtCall.isLightCommand = [] ∧
    (taskAppCode ioOk parameters (n + 1)).trace.filter ExtCall.isSuspension = [] ∧
    (taskAppCode ioOk parameters (n + 1)).trace.filter ExtCall.isBleEvent = [] := by
  rw [taskAppCode_succ_eq]
  exact ⟨rfl, by decide, by decide, rfl, rfl, rfl⟩

/-- C10: `taskAppCode` ignores `parameters`: for any two values of it, and
whatever the outcome of the I/O enable, the task state and the trace of calls
after `n` steps are the same. -/
theorem taskAppCode_parameters_ignored (ioOk : Bool) (p1 p2 : Nat) (n : Nat) :
    taskAppCode ioOk p1 n = taskAppCode ioOk p2 n ∧
    (taskAppCode ioOk p1 n).trace = (taskAppCode ioOk p2 n).trace ∧
    (taskAppCode ioOk p1 n).phase = (taskAppCode ioOk p2 n).phase := by
  cases n with
  | zero => exact ⟨rfl, rfl, rfl⟩
  | succ k =>
      rw [taskAppCode_succ_eq, taskAppCode_succ_eq]
      exact ⟨rfl, rfl, rfl⟩

/-! ## The declared interface of the BLE task -/

/-- C5, as stated, fails: `taskBle.h` writes `taskBleEventDoorState` with
empty parentheses. Read as C before C23 this fixes no arity, read as C23 it
fixes arity 0; under neither reading is the declared arity 1. -/
theorem taskBleEventDoorState_declared_without_parameter :
    declaredParams BleFunction.taskBleEventDoorState = some ParamList.empty ∧
    declaredArity CStandard.beforeC23 BleFunction.taskBleEventDoorState = none ∧
    declaredArity CStandard.c23 BleFunction.taskBleEventDoorState = some 0 ∧
    declaredArity CStandard.beforeC23 BleFunction.taskBleEventDoorState ≠ some 1 ∧
    declaredArity CStandard.c23 BleFunction.taskBleEventDoorState ≠ some 1 := by
  decide

/-- C5, amended: of the five functions `taskBle.h` declares, the event entry
points are exactly `taskBleEventDiscoverable`, `taskBleEventUndiscoverable`
and `taskBleEventDoorState`, the two others being `taskBleCodeInit` and
`taskBleCode`. Each of the three is written with empty parentheses, so no
parameter is declared for any of them: the header fixes arity 0 for each under
C23 and no arity before C23, and under no reading does it give
`taskBleEventDoorState` arity 1. -/
theorem taskBle_h_event_entry_points (std : CStandard) :
    taskBle_h.map (fun d => d.name) =
      [BleFunction.taskBleCodeInit, BleFunction.taskBleCode,
        BleFunction.taskBleEventDiscoverable, BleFunction.taskBleEventUndiscoverable,
        BleFunction.taskBleEventDoorState] ∧
    declaredEventEntryPoints =
      [BleFunction.taskBleEventDiscoverable, BleFunction.taskBleEventUndiscoverable,
        BleFunction.taskBleEventDoorState] ∧
    declaredParams BleFunction.taskBleEventDiscoverable = some ParamList.empty ∧
    declaredParams BleFunction.taskBleEventUndiscoverable = some ParamList.empty ∧
    declaredParams BleFunction.taskBleEventDoorState = some ParamList.empty ∧
    declaredArity CStandard.c23 BleFunction.taskBleEventDiscoverable = some 0 ∧
    declaredArity CStandard.c23 BleFunction.taskBleEventUndiscoverable = some 0 ∧
    declaredArity CStandard.c23 BleFunction.taskBleEventDoorState = some 0 ∧
    declaredArity CStandard.beforeC23 BleFunction.taskBleEventDiscoverable = none ∧
    declaredArity CStandard.beforeC23 BleFunction.taskBleEventUndiscoverable = none ∧
    declaredArity CStandard.beforeC23 BleFunction.taskBleEventDoorState = none ∧
    declaredArity std BleFunction.taskBleEventDoorState ≠ some 1 := by
  refine ⟨rfl, rfl, rfl, rfl, rfl, rfl, rfl, rfl, rfl, rfl, rfl, ?_⟩
  cases std
  · decide
  · decide

/-! ## The BLE task state machine -/

/-- C6: from the boot state (door state `Unknown`), after any finite sequence
of `taskBleEventDoorState` calls the recorded door state is the value of the last
call whose value differed from its predecessor, and `Unknown` when no call
differed; a call whose value equals the current door state leaves the state
unchanged and issues no request. -/
theorem taskBleEventDoorState_last_differing (calls : List DoorState) (st : BleTask) :
    (applyDoorStates calls BleTask.boot).doorState =
      (lastDiffering DoorState.Unknown calls).getD DoorState.Unknown ∧
    taskBleEventDoorState st.doorState st = (st, []) := by
  refine ⟨applyDoorStates_doorState calls BleTask.boot, ?_⟩
  simp [taskBleEventDoorState]

/-- C7: for every state of the BLE task, a second `taskBleEventDiscoverable` right
after a first one leaves the state as the first left it, with discoverability
`Discoverable`, and issues no request, hence no second advertising start. -/
theorem taskBleEventDiscoverable_idempotent (st : BleTask) :
    (taskBleEventDiscoverable (taskBleEventDiscoverable st).1).1 = (taskBleEventDiscoverable st).1 ∧
    (taskBleEventDiscoverable st).1.discoverability = DiscoverabilityState.Discoverable ∧
    (taskBleEventDiscoverable (taskBleEventDiscoverable st).1).1.discoverability =
      DiscoverabilityState.Discoverable ∧
    (taskBleEventDiscoverable (taskBleEventDiscoverable st).1).2 = [] ∧
    ((taskBleEventDiscoverable st).2 ++ (taskBleEventDiscoverable (taskBleEventDiscoverable st).1).2).count
      BleRequest.startAdvertising ≤ 1 := by
  unfold taskBleEventDiscoverable
  by_cases h : st.discoverability = DiscoverabilityState.Discoverable
  · simp [h]
  · simp [h]

/-! ## The light feedback task -/

end SmartLock
